import Mathlib

/-!
Verification of the signature/throttle transform resolution engine of the
ytdlp repository (package `youtube/cipher`).

The development shallowly embeds, over `List Char`, the pure text-analysis
and transform-application code of `cipher.go` and of the regex-based parser
file (`tryRegexDecipher`, `detectFallbackPatterns`, `regexReverse`,
`regexSplice`, `regexSwap`, `sanitizePlayerJS`, `tryPatternFallback`,
`getPlayerJS`, `Decipher`, `DecipherN`).

Go regular expressions are embedded as hand-compiled recognizers.  Every
pattern used by the source combines character classes that are pairwise
disjoint from the literals and classes that follow them, so Go's
leftmost-first backtracking semantics coincide with maximal-munch scanning;
each recognizer is documented with the original pattern.  Effects that a
shallow embedding cannot reproduce (the otto JavaScript interpreter, the
HTTP round trip, wall-clock time) are modelled as explicit oracle
parameters / outcome values, while everything the Go code computes itself
is embedded directly.
-/

set_option maxRecDepth 8192

namespace Ytdlp

/-! ### Character classes used by the Go regular expressions -/

/-- `[a-zA-Z0-9$]`, the identifier class used throughout the parser. -/
def isIdentChar (c : Char) : Bool :=
  ('a' ≤ c && c ≤ 'z') || ('A' ≤ c && c ≤ 'Z') || ('0' ≤ c && c ≤ '9') || c = '$'

/-- `\d`. -/
def isDigitChar (c : Char) : Bool := '0' ≤ c && c ≤ '9'

/-- `\w` (`[0-9A-Za-z_]`), used for `\b` word-boundary tests. -/
def isWordChar (c : Char) : Bool :=
  ('a' ≤ c && c ≤ 'z') || ('A' ≤ c && c ≤ 'Z') || ('0' ≤ c && c ≤ '9') || c = '_'

/-- Go regexp `\s`, i.e. `[\t\n\f\r ]`. -/
def isSpaceChar (c : Char) : Bool :=
  c = ' ' || c = '\t' || c = '\n' || c = '\x0c' || c = '\r'

/-- The character `{` (written via its code point to keep sources plain). -/
def lbrace : Char := Char.ofNat 123

/-- The character `}`. -/
def rbrace : Char := Char.ofNat 125

/-! ### List-of-characters helpers -/

/-- Match a literal (`regexp.QuoteMeta`-style) pattern at the head of the
input, returning the remainder after it. -/
def litP : List Char → List Char → Option (List Char)
  | [], s => some s
  | _, [] => none
  | p :: ps, c :: cs => if p = c then litP ps cs else none

/-- Longest run of characters satisfying `p` at the head: `(run, rest)`. -/
def spanP (p : Char → Bool) : List Char → List Char × List Char
  | [] => ([], [])
  | c :: cs =>
    if p c then
      let (r, rest) := spanP p cs
      (c :: r, rest)
    else ([], c :: cs)

/-- `\s*`: drop the (possibly empty) leading whitespace run. -/
def dropSpaces (s : List Char) : List Char := (spanP isSpaceChar s).2

/-- `\s+`: require at least one whitespace character, then drop the run. -/
def spaces1 (s : List Char) : Option (List Char) :=
  match s with
  | [] => none
  | c :: _ => if isSpaceChar c then some (dropSpaces s) else none

/-- `([\s\S]*?)` followed by a literal character `c` (lazy match): splits the
input at the first occurrence of `c`; fails when `c` does not occur. -/
def untilChar (c : Char) : List Char → Option (List Char × List Char)
  | [] => none
  | x :: xs =>
    if x = c then some ([], xs)
    else (untilChar c xs).map fun pr => (x :: pr.1, pr.2)

/-- `strings.Contains`. -/
def containsSub : List Char → List Char → Bool
  | _, [] => true
  | [], _ :: _ => false
  | c :: t, needle => needle.isPrefixOf (c :: t) || containsSub t needle

/-- `strings.Count` for a non-empty separator (non-overlapping count). -/
def countSubAux (needle : List Char) : Nat → List Char → Nat
  | 0, _ => 0
  | _, [] => 0
  | fuel + 1, c :: t =>
    if needle.isPrefixOf (c :: t) then
      1 + countSubAux needle fuel ((c :: t).drop needle.length)
    else countSubAux needle fuel t

def countSub (hay needle : List Char) : Nat := countSubAux needle hay.length hay

/-- `strings.TrimSpace` (restricted to the ASCII space characters that occur
in the scripts at hand). -/
def trimSpaces (s : List Char) : List Char :=
  (dropSpaces ((dropSpaces s.reverse)).reverse)

/-- `strings.Split` on a single-character separator. -/
def splitOn (sep : Char) : List Char → List (List Char)
  | [] => [[]]
  | c :: cs =>
    let r := splitOn sep cs
    if c = sep then [] :: r
    else
      match r with
      | [] => [[c]]
      | h :: t => (c :: h) :: t

/-- `strconv.Atoi`: optional sign, one or more digits consuming the whole
string, magnitude bounded by the 64-bit integer range. -/
def atoi (s : List Char) : Option Int :=
  let (neg, digits) :=
    match s with
    | '-' :: t => (true, t)
    | '+' :: t => (false, t)
    | t => (false, t)
  if digits = [] ∨ ¬ digits.all isDigitChar then none
  else
    let n : Nat := digits.foldl (fun a c => a * 10 + (c.toNat - 48)) 0
    if n > 9223372036854775807 then none
    else some (if neg then -(n : Int) else (n : Int))

/-- A digit run interpreted as a number (used where a capture group `(\d+)`
is immediately converted; the conversion cannot fail on these captures
except on 64-bit overflow, which `atoi` reports as `none`). -/
def digitsVal (digits : List Char) : Option Int := atoi digits

/-! ### Scanning combinators (Go `FindStringSubmatch` / `FindAllStringSubmatch`)

`scanFirst` returns the captures of the leftmost match; the matcher also
receives the character immediately before the current position (for `\b`).
`scanAll` returns the captures of all successive non-overlapping leftmost
matches; none of the patterns iterated with `scanAll` uses `\b`, so no
previous-character context is threaded there.  All embedded patterns match
at least one character, so a fuel of `length + 1` suffices. -/

def scanFirstAux (m : Option Char → List Char → Option α) :
    Nat → Option Char → List Char → Option α
  | 0, _, _ => none
  | fuel + 1, prev, s =>
    match m prev s with
    | some a => some a
    | none =>
      match s with
      | [] => none
      | c :: cs => scanFirstAux m fuel (some c) cs

def scanFirst (m : Option Char → List Char → Option α) (s : List Char) : Option α :=
  scanFirstAux m (s.length + 1) none s

def scanAllAux (m : List Char → Option (α × List Char)) :
    Nat → List Char → List α
  | 0, _ => []
  | fuel + 1, s =>
    match m s with
    | some (a, rest) => a :: scanAllAux m fuel rest
    | none =>
      match s with
      | [] => []
      | _ :: cs => scanAllAux m fuel cs

def scanAll (m : List Char → Option (α × List Char)) (s : List Char) : List α :=
  scanAllAux m (s.length + 1) s

/-! ### The transform operations (source file of `tryRegexDecipher`)

`regexReverse` embeds the in-place two-pointer swap loop, which reverses the
rune slice.  `regexSplice` and `regexSwap` follow the source line by line;
Go's `%` truncates towards zero, so `Int.tmod` is used, followed by the
source's negative-remainder fix-up. -/

def regexReverse (s : List Char) : List Char := s.reverse

def regexSplice (s : List Char) (n : Int) : List Char :=
  if n < 0 ∨ n > (s.length : Int) then s else s.drop n.toNat

def regexSwap (s : List Char) (n : Int) : List Char :=
  if s.length ≤ 1 then s
  else
    let m := Int.tmod n (s.length : Int)
    let m := if m < 0 then m + (s.length : Int) else m
    let i := m.toNat
    match s.get? 0, s.get? i with
    | some c0, some ci => (s.set 0 ci).set i c0
    | _, _ => s

/-- One parsed transform step; the operation tag is the source's string tag
("rev" / "spl" / "swp"). -/
structure regexStep where
  op : String
  arg : Int
  deriving Repr, DecidableEq

/-- One iteration of the apply loop (the `switch st.op` with a
`default: continue` that skips unknown tags). -/
def applyStep (r : List Char) (st : regexStep) : List Char :=
  if st.op = "rev" then regexReverse r
  else if st.op = "spl" then regexSplice r st.arg
  else if st.op = "swp" then regexSwap r st.arg
  else r

/-- The apply loop of `tryRegexDecipher`. -/
def applySteps (steps : List regexStep) (sig : List Char) : List Char :=
  steps.foldl applyStep sig

/-! ### `detectFallbackPatterns` -/

/-- Word-boundary test for `\b` placed before a word character: the previous
character (if any) must not be a word character. -/
def boundaryBefore (prev : Option Char) : Bool :=
  match prev with
  | none => true
  | some c => !isWordChar c

/-- Matcher for `\bsplice\([^,]+,\s*(\d+)\)`, returning the digit capture. -/
def spliceCallSiteAt (prev : Option Char) (s : List Char) : Option (List Char) :=
  if boundaryBefore prev then do
    let s ← litP ("splice(".toList) s
    let (run, s) := spanP (fun c => c ≠ ',') s
    if run = [] then none
    else do
      let s ← litP (",".toList) s
      let s := dropSpaces s
      let (ds, s) := spanP isDigitChar s
      if ds = [] then none
      else do
        let _ ← litP (")".toList) s
        some ds
  else none

/-- Matcher for `\.splice\(0,(\d+)\)`, returning the digit capture. -/
def spliceObjFormAt (s : List Char) : Option (List Char) := do
  let s ← litP (".splice(0,".toList) s
  let (ds, s) := spanP isDigitChar s
  if ds = [] then none
  else do
    let _ ← litP (")".toList) s
    some ds

/-- Matcher for `a\[(\d+)\]`, returning the digit capture. -/
def swapIndexAt (s : List Char) : Option (List Char) := do
  let s ← litP ("a[".toList) s
  let (ds, s) := spanP isDigitChar s
  if ds = [] then none
  else do
    let _ ← litP ("]".toList) s
    some ds

/-- The final guard of `detectFallbackPatterns`: if no patterns were found,
try some common transformations. -/
def orDefaultSteps (steps : List regexStep) : List regexStep :=
  if steps = [] then [⟨"rev", 0⟩, ⟨"spl", 1⟩, ⟨"rev", 0⟩] else steps

/-- `detectFallbackPatterns`: keyword-driven guesses used whenever the main
structural parse fails. -/
def detectFallbackPatterns (js : List Char) : List regexStep :=
  let steps : List regexStep := []
  let steps :=
    if containsSub js ("reverse".toList) && containsSub js ("join".toList) then
      steps ++ [⟨"rev", 0⟩]
    else steps
  let steps :=
    if containsSub js ("splice".toList) then
      let steps :=
        match scanFirst spliceCallSiteAt js with
        | some ds =>
          match digitsVal ds with
          | some n => steps ++ [⟨"spl", n⟩]
          | none => steps
        | none => steps
      let steps :=
        if steps = [] then
          match scanFirst (fun _ => spliceObjFormAt) js with
          | some ds =>
            match digitsVal ds with
            | some n => steps ++ [⟨"spl", n⟩]
            | none => steps
          | none => steps
        else steps
      let steps :=
        if steps = [] then
          steps ++ ([1, 2, 3, 4, 5, 6, 7, 8, 9, 10].map fun o : Nat => ⟨"spl", (o : Int)⟩)
        else steps
      steps
    else steps
  let steps :=
    if containsSub js ("a[0]=a[".toList) && containsSub js ("%a.length".toList) then
      match scanFirst (fun _ => swapIndexAt) js with
      | some ds =>
        match digitsVal ds with
        | some n => steps ++ [⟨"swp", n⟩]
        | none => steps
      | none => steps
    else steps
  let steps :=
    if containsSub js ("charCodeAt".toList) then steps ++ [⟨"rev", 0⟩] else steps
  let steps :=
    if containsSub js ("fromCharCode".toList) then steps ++ [⟨"rev", 0⟩] else steps
  orDefaultSteps steps

/-! ### `tryPatternFallback` -/

/-- Matcher for `splice\((\d+)` (no trailing `\)` in the source pattern),
returning the digit capture. -/
def spliceOffsetAt (s : List Char) : Option (List Char) := do
  let s ← litP ("splice(".toList) s
  let (ds, _) := spanP isDigitChar s
  if ds = [] then none else some ds

/-- The probe loop `for offset := 1; offset <= 10; offset++`: the first
offset with `len(signature) > offset` yields `signature[offset:]`. -/
def probeSpliceOffsets (sig : List Char) : Option (List Char) :=
  (([1, 2, 3, 4, 5, 6, 7, 8, 9, 10] : List Nat).find? fun o => sig.length > o).map
    fun o => sig.drop o

/-- `tryPatternFallback`: keyword heuristics applied directly to the
signature (byte slicing in the source is modelled as character slicing; the
signatures at hand are ASCII). -/
def tryPatternFallback (js sig : List Char) : Option (List Char) :=
  if containsSub js ("reverse".toList) && containsSub js ("join".toList) then
    some sig.reverse
  else if containsSub js ("splice".toList) then
    match scanFirst (fun _ => spliceOffsetAt) js with
    | some ds =>
      match digitsVal ds with
      | some off =>
        if (sig.length : Int) > off then some (sig.drop off.toNat)
        else probeSpliceOffsets sig
      | none => probeSpliceOffsets sig
    | none => probeSpliceOffsets sig
  else none

/-! ### `sanitizePlayerJS`

Ten sequential `ReplaceAllString` passes.  `goReplaceAll` embeds Go's
replace-all scan: repeatedly find the leftmost match, emit the replacement,
continue after the match (every embedded pattern consumes at least one
character, so no empty-match handling is needed). -/

def goReplaceAll (m : List Char → Option (List Char)) (rep : List Char) :
    Nat → List Char → List Char
  | 0, s => s
  | _ + 1, [] => []
  | fuel + 1, c :: cs =>
    match m (c :: cs) with
    | some rest => rep ++ goReplaceAll m rep fuel rest
    | none => c :: goReplaceAll m rep fuel cs

def replaceAll (m : List Char → Option (List Char)) (rep : List Char)
    (s : List Char) : List Char :=
  goReplaceAll m rep (s.length + 1) s

/-- `\?=[^)]*\)` — lookahead. -/
def lookaheadAt (s : List Char) : Option (List Char) := do
  let s ← litP ("?=".toList) s
  let (_, s) := spanP (fun c => c ≠ ')') s
  litP (")".toList) s

/-- `\?![^)]*\)` — negative lookahead. -/
def negLookaheadAt (s : List Char) : Option (List Char) := do
  let s ← litP ("?!".toList) s
  let (_, s) := spanP (fun c => c ≠ ')') s
  litP (")".toList) s

/-- `\?<=[^)]*\)` — lookbehind. -/
def lookbehindAt (s : List Char) : Option (List Char) := do
  let s ← litP ("?<=".toList) s
  let (_, s) := spanP (fun c => c ≠ ')') s
  litP (")".toList) s

/-- `\?<![^)]*\)` — negative lookbehind. -/
def negLookbehindAt (s : List Char) : Option (List Char) := do
  let s ← litP ("?<!".toList) s
  let (_, s) := spanP (fun c => c ≠ ')') s
  litP (")".toList) s

/-- `\?<[^>]*>` — named capture group. -/
def namedCaptureAt (s : List Char) : Option (List Char) := do
  let s ← litP ("?<".toList) s
  let (_, s) := spanP (fun c => c ≠ '>') s
  litP (">".toList) s

/-- `\?>[^)]*\)` — atomic group. -/
def atomicGroupAt (s : List Char) : Option (List Char) := do
  let s ← litP ("?>".toList) s
  let (_, s) := spanP (fun c => c ≠ ')') s
  litP (")".toList) s

/-- `\?[^)]*\)` — any remaining question-mark pattern. -/
def questionAt (s : List Char) : Option (List Char) := do
  let s ← litP ("?".toList) s
  let (_, s) := spanP (fun c => c ≠ ')') s
  litP (")".toList) s

/-- `\(\s*\)` — empty parentheses. -/
def emptyParensAt (s : List Char) : Option (List Char) := do
  let s ← litP ("(".toList) s
  let s := dropSpaces s
  litP (")".toList) s

/-- `\(\s*;` — parenthesis before a semicolon (replaced by `";"`). -/
def parenSemiAt (s : List Char) : Option (List Char) := do
  let s ← litP ("(".toList) s
  let s := dropSpaces s
  litP (";".toList) s

/-- `\(\s*$` — parenthesis at end of text (Go `$` without the `m` flag). -/
def parenEndAt (s : List Char) : Option (List Char) := do
  let s ← litP ("(".toList) s
  let s := dropSpaces s
  match s with
  | [] => some []
  | _ :: _ => none

/-- `sanitizePlayerJS`: the ten rewrite passes, in source order. -/
def sanitizePlayerJS (js : List Char) : List Char :=
  let js := replaceAll lookaheadAt [] js
  let js := replaceAll negLookaheadAt [] js
  let js := replaceAll lookbehindAt [] js
  let js := replaceAll negLookbehindAt [] js
  let js := replaceAll namedCaptureAt [] js
  let js := replaceAll atomicGroupAt [] js
  let js := replaceAll questionAt [] js
  let js := replaceAll emptyParensAt [] js
  let js := replaceAll parenSemiAt (";".toList) js
  let js := replaceAll parenEndAt [] js
  js

/-! ### The structural parser of `tryRegexDecipher`

The four candidate-function patterns, the quick paths, the helper-object
extraction and classification, and the call-sequence parse. -/

/-- `function\s*([a-zA-Z0-9$]*)\s*\(\s*([a-zA-Z0-9$]+)\s*\)\s*\{([\s\S]*?)\}`
(pattern 1, standard function declaration); captures `(param, body)` (the
source loop reads only submatch groups 2 and 3). -/
def fnRe1At (s : List Char) : Option ((List Char × List Char) × List Char) := do
  let s ← litP ("function".toList) s
  let s := dropSpaces s
  let s := (spanP isIdentChar s).2
  let s := dropSpaces s
  let s ← litP ("(".toList) s
  let s := dropSpaces s
  let (param, s) := spanP isIdentChar s
  if param = [] then none
  else do
    let s := dropSpaces s
    let s ← litP (")".toList) s
    let s := dropSpaces s
    let s ← litP [lbrace] s
    let (body, s) ← untilChar rbrace s
    some ((param, body), s)

/-- `([a-zA-Z0-9$]+)\s*=\s*\(([a-zA-Z0-9$]+)\)\s*=>\s*\{([\s\S]*?)\}`
(pattern 2, arrow function). -/
def fnRe2At (s : List Char) : Option ((List Char × List Char) × List Char) := do
  let (name, s) := spanP isIdentChar s
  if name = [] then none
  else do
    let s := dropSpaces s
    let s ← litP ("=".toList) s
    let s := dropSpaces s
    let s ← litP ("(".toList) s
    let (param, s) := spanP isIdentChar s
    if param = [] then none
    else do
      let s ← litP (")".toList) s
      let s := dropSpaces s
      let s ← litP ("=>".toList) s
      let s := dropSpaces s
      let s ← litP [lbrace] s
      let (body, s) ← untilChar rbrace s
      some ((param, body), s)

/-- `([a-zA-Z0-9$]+)\s*:\s*function\s*\(\s*([a-zA-Z0-9$]+)\s*\)\s*\{([\s\S]*?)\}`
(pattern 3, function expression). -/
def fnRe3At (s : List Char) : Option ((List Char × List Char) × List Char) := do
  let (name, s) := spanP isIdentChar s
  if name = [] then none
  else do
    let s := dropSpaces s
    let s ← litP (":".toList) s
    let s := dropSpaces s
    let s ← litP ("function".toList) s
    let s := dropSpaces s
    let s ← litP ("(".toList) s
    let s := dropSpaces s
    let (param, s) := spanP isIdentChar s
    if param = [] then none
    else do
      let s := dropSpaces s
      let s ← litP (")".toList) s
      let s := dropSpaces s
      let s ← litP [lbrace] s
      let (body, s) ← untilChar rbrace s
      some ((param, body), s)

/-- `([a-zA-Z0-9$]+)\s*\(\s*([a-zA-Z0-9$]+)\s*\)\s*\{([\s\S]*?)\}`
(pattern 4, ES6 method syntax). -/
def fnRe4At (s : List Char) : Option ((List Char × List Char) × List Char) := do
  let (name, s) := spanP isIdentChar s
  if name = [] then none
  else do
    let s := dropSpaces s
    let s ← litP ("(".toList) s
    let s := dropSpaces s
    let (param, s) := spanP isIdentChar s
    if param = [] then none
    else do
      let s := dropSpaces s
      let s ← litP (")".toList) s
      let s := dropSpaces s
      let s ← litP [lbrace] s
      let (body, s) ← untilChar rbrace s
      some ((param, body), s)

/-- The pattern cascade: each `FindAllStringSubmatch` is attempted only when
the previous pattern produced no matches. -/
def fnCandidates (js : List Char) : List (List Char × List Char) :=
  let m1 := scanAll fnRe1At js
  if m1 ≠ [] then m1
  else
    let m2 := scanAll fnRe2At js
    if m2 ≠ [] then m2
    else
      let m3 := scanAll fnRe3At js
      if m3 ≠ [] then m3
      else scanAll fnRe4At js

/-- The candidate filter: the first match whose body splits the parameter
into a character array and rejoins it. -/
def findDecipherFn (js : List Char) : Option (List Char × List Char) :=
  (fnCandidates js).find? fun pb =>
    containsSub pb.2 (pb.1 ++ (".split(\"\")".toList)) &&
      containsSub pb.2 (("return ".toList) ++ pb.1 ++ (".join(\"\")".toList))

/-- `\breverse\(\s*PARAM\s*\)` (quick path 1). -/
def revCallAt (param : List Char) (prev : Option Char) (s : List Char) :
    Option Unit :=
  if boundaryBefore prev then do
    let s ← litP ("reverse(".toList) s
    let s := dropSpaces s
    let s ← litP param s
    let s := dropSpaces s
    let _ ← litP (")".toList) s
    some ()
  else none

/-- `\bsplice\(\s*PARAM\s*,\s*(\d+)\s*\)` (quick path 1), returning the
digit capture. -/
def splCallAt (param : List Char) (prev : Option Char) (s : List Char) :
    Option (List Char) :=
  if boundaryBefore prev then do
    let s ← litP ("splice(".toList) s
    let s := dropSpaces s
    let s ← litP param s
    let s := dropSpaces s
    let s ← litP (",".toList) s
    let s := dropSpaces s
    let (ds, s) := spanP isDigitChar s
    if ds = [] then none
    else do
      let s := dropSpaces s
      let _ ← litP (")".toList) s
      some ds
  else none

/-- `([a-zA-Z0-9$]+)\.[a-zA-Z0-9$]+\(PARAM(?:,\s*\d+)?\)`: first call site of
shape `OBJ.method(param[, N])`; captures the object name. -/
def objNameAt (param : List Char) (s : List Char) : Option (List Char) := do
  let (obj, s) := spanP isIdentChar s
  if obj = [] then none
  else do
    let s ← litP (".".toList) s
    let (meth, s) := spanP isIdentChar s
    if meth = [] then none
    else do
      let s ← litP ("(".toList) s
      let s ← litP param s
      match s with
      | ')' :: _ => some obj
      | ',' :: s => do
        let s := dropSpaces s
        let (ds, s) := spanP isDigitChar s
        if ds = [] then none
        else do
          let _ ← litP (")".toList) s
          some obj
      | _ => none

/-- `var|let|const` keyword alternation (the three literals are pairwise
non-prefixing, so alternation order is immaterial). -/
def kwVarLetConst (s : List Char) : Option (List Char) :=
  match litP ("var".toList) s with
  | some r => some r
  | none =>
    match litP ("let".toList) s with
    | some r => some r
    | none => litP ("const".toList) s

/-- `(?:var|let|const)\s+OBJ\s*=\s*\{([\s\S]*?)\}\s*;?`: the helper-object
literal; captures the (lazily matched) object body.  The trailing `\s*;?`
always succeeds and captures nothing, so it is not modelled. -/
def objLiteralAt (obj : List Char) (s : List Char) : Option (List Char) := do
  let s ← kwVarLetConst s
  let s ← spaces1 s
  let s ← litP obj s
  let s := dropSpaces s
  let s ← litP ("=".toList) s
  let s := dropSpaces s
  let s ← litP [lbrace] s
  let (objBody, _) ← untilChar rbrace s
  some objBody

/-- `([a-zA-Z0-9$]+)\s*:\s*function\(a(?:,b)?\)\s*\{([\s\S]*?)\}`: one
helper-object member; captures `(name, functionBody)`. -/
def funcReAt (s : List Char) : Option ((List Char × List Char) × List Char) := do
  let (name, s) := spanP isIdentChar s
  if name = [] then none
  else do
    let s := dropSpaces s
    let s ← litP (":".toList) s
    let s := dropSpaces s
    let s ← litP ("function(a".toList) s
    let s ←
      match s with
      | ')' :: rest => some rest
      | ',' :: 'b' :: ')' :: rest => some rest
      | _ => none
    let s := dropSpaces s
    let s ← litP [lbrace] s
    let (fbody, s) ← untilChar rbrace s
    some ((name, fbody), s)

/-- Classify one member body: `.reverse()` ⇒ `rev`; else `.splice(` ⇒ `spl`;
else `a[0]=a[` together with `%a.length]` ⇒ `swp`; else unclassified. -/
def classifyMember (fbody : List Char) : Option String :=
  if containsSub fbody (".reverse()".toList) then some "rev"
  else if containsSub fbody (".splice(".toList) then some "spl"
  else if containsSub fbody ("a[0]=a[".toList) && containsSub fbody ("%a.length]".toList) then
    some "swp"
  else none

/-- Go map read. -/
def mapGet (m : List (List Char × String)) (k : List Char) : Option String :=
  (m.find? fun p => p.1 = k).map fun p => p.2

/-- Go map write (overwriting; keys stay unique).  Go's map iteration order
is unspecified — the later back-fill loop iterates this map, but that code
is unreachable (see `classify_of_objLiteral`), so the list order chosen here
is immaterial. -/
def mapSet (m : List (List Char × String)) (k : List Char) (v : String) :
    List (List Char × String) :=
  (m.filter fun p => decide (p.1 ≠ k)) ++ [(k, v)]

/-- The `nameToOp` construction loop over the member matches. -/
def buildNameToOp (members : List (List Char × List Char)) :
    List (List Char × String) :=
  members.foldl
    (fun m p =>
      match classifyMember p.2 with
      | some op => mapSet m p.1 op
      | none => m)
    []

/-- `OBJ\.([a-zA-Z0-9$]+)\(PARAM(?:,\s*(\d+))?\)`: one transform call;
captures the method name and the optional numeric argument. -/
def callReAt (obj param : List Char) (s : List Char) :
    Option ((List Char × Option (List Char)) × List Char) := do
  let s ← litP obj s
  let s ← litP (".".toList) s
  let (fn, s) := spanP isIdentChar s
  if fn = [] then none
  else do
    let s ← litP ("(".toList) s
    let s ← litP param s
    match s with
    | ')' :: rest => some ((fn, none), rest)
    | ',' :: s => do
      let s := dropSpaces s
      let (ds, s) := spanP isDigitChar s
      if ds = [] then none
      else do
        let s ← litP (")".toList) s
        some ((fn, some ds), s)
    | _ => none

/-- `OBJ\s*\.\s*([a-zA-Z0-9$]+)\(([^)]*)\)`: the generic call fallback;
captures the method name and the raw argument text. -/
def genReAt (obj : List Char) (s : List Char) :
    Option ((List Char × List Char) × List Char) := do
  let s ← litP obj s
  let s := dropSpaces s
  let s ← litP (".".toList) s
  let s := dropSpaces s
  let (fn, s) := spanP isIdentChar s
  if fn = [] then none
  else do
    let s ← litP ("(".toList) s
    let (args, s) := spanP (fun c => c ≠ ')') s
    let s ← litP (")".toList) s
    some ((fn, args), s)

/-- `OBJ\.FNAME\(PARAM\s*,\s*(\d+)\)`: the back-fill call-site scan for one
splice-classified member; captures the digits. -/
def backfillAt (obj fname param : List Char) (s : List Char) :
    Option (List Char) := do
  let s ← litP obj s
  let s ← litP (".".toList) s
  let s ← litP fname s
  let s ← litP ("(".toList) s
  let s ← litP param s
  let s := dropSpaces s
  let s ← litP (",".toList) s
  let s := dropSpaces s
  let (ds, s) := spanP isDigitChar s
  if ds = [] then none
  else do
    let _ ← litP (")".toList) s
    some ds

/-! ### The parse phase of `tryRegexDecipher` -/

/-- Outcome of the parse phase: the two quick paths return a deciphered
string directly (bypassing the parse cache); every other branch produces a
step list that is written to the cache. -/
inductive ParseOutcome
  | early (out : List Char)
  | steps (parsed : List regexStep)
  deriving Repr, DecidableEq

/-- The loop over `callRe` matches: unknown method names are skipped; a
missing or unconvertible numeric argument leaves `arg = 0`. -/
def callsLoop (nameToOp : List (List Char × String))
    (calls : List (List Char × Option (List Char))) : List regexStep :=
  calls.foldl
    (fun parsed c =>
      match mapGet nameToOp c.1 with
      | none => parsed
      | some op =>
        let arg : Int :=
          match c.2 with
          | some ds =>
            match atoi ds with
            | some v => v
            | none => 0
          | none => 0
        parsed ++ [⟨op, arg⟩])
    []

/-- The loop over the generic `genRe` matches: for a splice member the
second comma-separated argument is trimmed and converted, else `arg = 0`. -/
def gensLoop (nameToOp : List (List Char × String))
    (gens : List (List Char × List Char)) : List regexStep :=
  gens.foldl
    (fun parsed g =>
      match mapGet nameToOp g.1 with
      | none => parsed
      | some op =>
        let arg : Int :=
          if op = "spl" then
            match (splitOn ',' g.2).get? 1 with
            | some p1 =>
              match atoi (trimSpaces p1) with
              | some v => v
              | none => 0
            | none => 0
          else 0
        parsed ++ [⟨op, arg⟩])
    []

/-- The splice-argument back-fill: when some splice step has argument 0, any
call-site literal for a splice-classified member overwrites every
zero-argument splice step. -/
def backfillSteps (obj param body : List Char)
    (nameToOp : List (List Char × String)) (parsed : List regexStep) :
    List regexStep :=
  let needsArg := parsed.any fun st => decide (st.op = "spl" ∧ st.arg = 0)
  if needsArg then
    nameToOp.foldl
      (fun parsed p =>
        if p.2 = "spl" then
          match scanFirst (fun _ => backfillAt obj p.1 param) body with
          | some ds =>
            match digitsVal ds with
            | some v =>
              parsed.map fun st =>
                if decide (st.op = "spl" ∧ st.arg = 0) then ⟨st.op, v⟩ else st
            | none => parsed
          | none => parsed
        else parsed)
      parsed
  else parsed

/-- The final heuristic of the call-sequence branch: a body containing both
`.reverse()` and `.splice(` discards the parsed sequence and replaces it by
reverse → splice(N) → reverse, `N` defaulting to 26. -/
def reverseSpliceOverride (body : List Char) (parsed : List regexStep) :
    List regexStep :=
  if containsSub body (".reverse()".toList) && containsSub body (".splice(".toList) then
    let spArg : Int :=
      match scanFirst (fun _ => spliceObjFormAt) body with
      | some ds =>
        match atoi ds with
        | some v => v
        | none => 26
      | none => 26
    [⟨"rev", 0⟩, ⟨"spl", spArg⟩, ⟨"rev", 0⟩]
  else parsed

/-- Quick path 1: `reverse(param)` and `splice(param, N)` both occur in the
body and the captured `N` converts; yields `N`. -/
def quick1Arg (param body : List Char) : Option Int :=
  match scanFirst (revCallAt param) body with
  | none => none
  | some _ =>
    match scanFirst (splCallAt param) body with
    | none => none
    | some ds => atoi ds

/-- Quick path 2: at least two `.reverse()` occurrences and a literal
`.splice(0,N)` in the body; yields `N`. -/
def quick2Arg (body : List Char) : Option Int :=
  if countSub body (".reverse()".toList) ≥ 2 then
    match scanFirst (fun _ => spliceObjFormAt) body with
    | some ds => atoi ds
    | none => none
  else none

/-- The complete parse phase of `tryRegexDecipher` (the cache-miss branch of
the source function, lines between the cache read and the cache write). -/
def parsePhase (js sig : List Char) : ParseOutcome :=
  match findDecipherFn js with
  | none => .steps (detectFallbackPatterns js)
  | some pb =>
    let param := pb.1
    let body := pb.2
    match quick1Arg param body with
    | some n => .early (regexReverse (regexSplice (regexReverse sig) n))
    | none =>
      match quick2Arg body with
      | some n => .early (regexReverse (regexSplice (regexReverse sig) n))
      | none =>
        match scanFirst (fun _ => objNameAt param) body with
        | none => .steps (detectFallbackPatterns js)
        | some obj =>
          match scanFirst (fun _ => objLiteralAt obj) js with
          | none => .steps (detectFallbackPatterns js)
          | some objBody =>
            let nameToOp := buildNameToOp (scanAll funcReAt objBody)
            if nameToOp = [] then .steps (detectFallbackPatterns js)
            else
              let calls := scanAll (callReAt obj param) body
              if calls = [] then
                let gens := scanAll (genReAt obj) body
                if gens ≠ [] then .steps (gensLoop nameToOp gens)
                else .steps (detectFallbackPatterns js)
              else
                let parsed := callsLoop nameToOp calls
                let parsed := backfillSteps obj param body nameToOp parsed
                .steps (reverseSpliceOverride body parsed)

/-! ### Association-list caches

Go's maps are embedded as association lists; a write prepends, a read takes
the most recent entry. -/

def aget [DecidableEq κ] (m : List (κ × α)) (k : κ) : Option α :=
  (m.find? fun p => decide (p.1 = k)).map fun p => p.2

def aset [DecidableEq κ] (m : List (κ × α)) (k : κ) (v : α) : List (κ × α) :=
  (k, v) :: m

/-- `tryRegexDecipher`, with the `regexParseCache` threaded explicitly.  The
source keys the cache by the hexadecimal SHA-1 of the script; the hash is
modelled as the script content itself (a collision-free content key). -/
def tryRegexDecipher (cache : List (List Char × List regexStep))
    (js sig : List Char) : Option (List Char) × List (List Char × List regexStep) :=
  match aget cache js with
  | some steps =>
    (if steps = [] then none else some (applySteps steps sig), cache)
  | none =>
    match parsePhase js sig with
    | .early out => (some out, cache)
    | .steps parsed =>
      let cache' := aset cache js parsed
      (if parsed = [] then none else some (applySteps parsed sig), cache')

/-! ### The orchestrator (`getPlayerJS`, `Decipher`, `DecipherN`)

Wall-clock time is an explicit `now : Nat` (seconds); TTLs are the source
constants in seconds.  The HTTP round trip and the otto interpreter are
oracle values/functions: everything the Go code itself computes is embedded,
everything it obtains from the outside world is a parameter. -/

/-- Structured errors (`NewError`); only the codes reachable from the
embedded functions are modelled. -/
inductive CipherError
  | playerJSDownload (message : String)
  | signatureDecipher (message : String)
  deriving Repr, DecidableEq

def playerJSTTL : Nat := 600
def signatureTTL : Nat := 3600

/-- Outcome of one attempted script download, as seen by `getPlayerJS`:
request construction, the round trip, or the body read may fail; otherwise a
status code and a body are produced.  `getPlayerJS` never inspects the
status code. -/
inductive FetchOutcome
  | reqError
  | doError
  | readError
  | response (status : Nat) (body : List Char)
  deriving Repr, DecidableEq

structure PlayerJSEntry where
  body : List Char
  expAt : Nat
  deriving Repr, DecidableEq

structure SigEntry where
  value : List Char
  expAt : Nat
  deriving Repr, DecidableEq

/-- TTL-aware cache read: an entry is visible only while `now < expAt`
(`time.Now().Before(entry.expAt)`). -/
def cacheGet [DecidableEq κ] (m : List (κ × PlayerJSEntry)) (k : κ) (now : Nat) :
    Option (List Char) :=
  match aget m k with
  | some e => if now < e.expAt then some e.body else none
  | none => none

def sigCacheGet (m : List (List Char × SigEntry)) (k : List Char) (now : Nat) :
    Option (List Char) :=
  match aget m k with
  | some e => if now < e.expAt then some e.value else none
  | none => none

/-- `getPlayerJS`: cache read, then the GET with browser-like headers, then
the body read; a completed response is cached (with `expAt = now + TTL`) and
returned without any status-code check. -/
def getPlayerJS (cache : List (String × PlayerJSEntry)) (now : Nat)
    (outcome : FetchOutcome) (url : String) :
    Except CipherError (List Char) × List (String × PlayerJSEntry) :=
  match cacheGet cache url now with
  | some body => (.ok body, cache)
  | none =>
    match outcome with
    | .reqError =>
      (.error (.playerJSDownload "Failed to create request for player.js"), cache)
    | .doError => (.error (.playerJSDownload "Failed to download player.js"), cache)
    | .readError =>
      (.error (.playerJSDownload "Failed to read player.js content"), cache)
    | .response _status body =>
      (.ok body, aset cache url ⟨body, now + playerJSTTL⟩)

/-- The whole mutable state of the package: the three process-wide caches.
The metrics counters and the debug prints are advisory output and are not
modelled. -/
structure CipherState where
  playerJSCache : List (String × PlayerJSEntry)
  signatureCache : List (List Char × SigEntry)
  regexParseCache : List (List Char × List regexStep)
  deriving Repr, DecidableEq

def CipherState.empty : CipherState := ⟨[], [], []⟩

/-- The four decipher strategies in the order `Decipher` declares them
(`Method 1` … `Method 4`); the returned trace lists the strategies that were
attempted, mirroring the source's per-method debug prints. -/
inductive Strat
  | miniJS
  | regex
  | otto
  | pattern
  deriving Repr, DecidableEq

/-- Oracles for the effects of one `Decipher`/`DecipherN` call:
`fetch` is the outcome of the (at most one) script download;
`miniJS content sig` is the result of `tryMiniJSDecipher` (which extracts a
minimal program and runs it in otto — the extraction feeds an interpreter,
so the pair is modelled as one oracle); `otto content sig` is the result of
`tryOttoDecipher` (full-script execution with sanitize-and-retry). -/
structure DecipherEnv where
  fetch : FetchOutcome
  miniJS : List Char → List Char → Option (List Char)
  otto : List Char → List Char → Option (List Char)

/-- Write one resolved signature into the signature cache. -/
def writeSig (st : CipherState) (sig out : List Char) (now : Nat) : CipherState :=
  { st with signatureCache := aset st.signatureCache sig ⟨out, now + signatureTTL⟩ }

/-- `Decipher`: signature-cache probe, script fetch, then the four
strategies in source order; every success is written to the signature cache
(keyed by the raw signature), and only total failure returns
`SIGNATURE_DECIPHER_FAILED`. -/
def Decipher (env : DecipherEnv) (st : CipherState) (now : Nat) (url : String)
    (sig : List Char) :
    Except CipherError (List Char) × CipherState × List Strat :=
  match sigCacheGet st.signatureCache sig now with
  | some v => (.ok v, st, [])
  | none =>
    match getPlayerJS st.playerJSCache now env.fetch url with
    | (.error _e, pc') =>
      (.error (.playerJSDownload "Failed to download player.js"),
        { st with playerJSCache := pc' }, [])
    | (.ok content, pc') =>
      let st1 := { st with playerJSCache := pc' }
      match env.miniJS content sig with
      | some out => (.ok out, writeSig st1 sig out now, [.miniJS])
      | none =>
        match tryRegexDecipher st1.regexParseCache content sig with
        | (some out, rc') =>
          (.ok out, writeSig { st1 with regexParseCache := rc' } sig out now,
            [.miniJS, .regex])
        | (none, rc') =>
          let st2 := { st1 with regexParseCache := rc' }
          match env.otto content sig with
          | some out =>
            (.ok out, writeSig st2 sig out now, [.miniJS, .regex, .otto])
          | none =>
            match tryPatternFallback content sig with
            | some out =>
              (.ok out, writeSig st2 sig out now,
                [.miniJS, .regex, .otto, .pattern])
            | none =>
              (.error (.signatureDecipher "All decipher methods failed"), st2,
                [.miniJS, .regex, .otto, .pattern])

/-- Oracles for the JavaScript world of `DecipherN`: whether running a given
script text succeeds within the deadline (`runOk`), whether the resulting
machine exposes a function `ncode` (`hasNcode`, also false when `vm.Get`
errors), and the result of calling it (`callNcode`, `none` when the call
raises or the result does not stringify). -/
structure JSEnv where
  runOk : List Char → Bool
  hasNcode : List Char → Bool
  callNcode : List Char → List Char → Option (List Char)

/-- `DecipherN`: fetch, run (retrying on the sanitized script), then call
`ncode`; every failure after a successful fetch returns the input value with
a nil error, while a fetch failure is propagated. -/
def DecipherN (env : JSEnv) (cache : List (String × PlayerJSEntry)) (now : Nat)
    (outcome : FetchOutcome) (url : String) (nval : List Char) :
    Except CipherError (List Char) × List (String × PlayerJSEntry) :=
  match getPlayerJS cache now outcome url with
  | (.error e, cache') => (.error e, cache')
  | (.ok content, cache') =>
    let vmScript : Option (List Char) :=
      if env.runOk content then some content
      else if env.runOk (sanitizePlayerJS content) then some (sanitizePlayerJS content)
      else none
    match vmScript with
    | none => (.ok nval, cache')
    | some s =>
      if env.hasNcode s then
        match env.callNcode s nval with
        | some r => (.ok r, cache')
        | none => (.ok nval, cache')
      else (.ok nval, cache')

/-! ### Concrete fixtures

`fixtureJS`/`fixtureSig` are the script and input of the repository's
`TestTryRegexDecipher` fixture (`regex_test.go`); `js9Script` is a script of
the same helper-object shape whose transform body contains both
`.reverse()` and `.splice(`. -/

def fixtureJS : List Char :=
  ("function X(a)\x7ba=a.split(\"\");B.B0(a,1);B.x9(a,26);B.B0(a,3);return a.join(\"\")\x7d;var B=\x7bB0:function(a)\x7ba.reverse()\x7d,x9:function(a,b)\x7ba.splice(0,b)\x7d,yG:function(a,b)\x7bvar c=a[0];a[0]=a[b%a.length];a[b%a.length]=c\x7d\x7d;").toList

def fixtureSig : List Char :=
  ("ABCDEFGHIJKLMNabcdefghijklmnopqrstuvwxyz0123456789ABCDEFGHIJKLMNOPQRSTUVWXYZabcdefghijklmnopqr").toList

def js9Script : List Char :=
  ("function X(a)\x7ba=a.split(\"\");B.B0(a,1);a.reverse();a.splice(0,7);return a.join(\"\")\x7d;var B=\x7bB0:function(a)\x7ba.reverse()\x7d\x7d;").toList

def js9Body : List Char :=
  ("a=a.split(\"\");B.B0(a,1);a.reverse();a.splice(0,7);return a.join(\"\")").toList

/-! ### Specification-side and auxiliary definitions used by the claims -/

/-- Specification-side swap (C10's wording): swap index 0 with index
`n mod len(s)` (mathematical modulus), lengths ≥ 2. -/
def regexSwapSpec (s : List Char) (n : Int) : List Char :=
  if s.length ≤ 1 then s
  else
    let i := (n % (s.length : Int)).toNat
    match s.get? 0, s.get? i with
    | some c0, some ci => (s.set 0 ci).set i c0
    | _, _ => s

/-- The post-fetch failure conditions enumerated by the claim, evaluated on
the oracles: the script does not run (even sanitized), or the throttle
function is absent, or calling it fails / does not stringify. -/
def nDecodeFails (env : JSEnv) (content nval : List Char) : Bool :=
  match (if env.runOk content then some content
         else if env.runOk (sanitizePlayerJS content) then some (sanitizePlayerJS content)
         else none) with
  | none => true
  | some s => !env.hasNcode s || (env.callNcode s nval).isNone

/-- The claim's hypothesis: the structural parser matches none of its known
shapes — no parameter-split/join function, or (with the quick shortcuts not
firing) no helper-object name, or no helper-object literal, or no
classifiable helper method, or no call sequence (neither strict nor
generic). -/
def ParserMatchesNothing (js : List Char) : Prop :=
  findDecipherFn js = none ∨
  ∃ pb, findDecipherFn js = some pb ∧ quick1Arg pb.1 pb.2 = none ∧
    quick2Arg pb.2 = none ∧
    (scanFirst (fun _ => objNameAt pb.1) pb.2 = none ∨
      ∃ obj, scanFirst (fun _ => objNameAt pb.1) pb.2 = some obj ∧
        (scanFirst (fun _ => objLiteralAt obj) js = none ∨
          ∃ ob, scanFirst (fun _ => objLiteralAt obj) js = some ob ∧
            (buildNameToOp (scanAll funcReAt ob) = [] ∨
              (scanAll (callReAt obj pb.1) pb.2 = [] ∧
                scanAll (genReAt obj) pb.2 = []))))

/-- Invariant of the parsed-transform cache: no entry is empty. -/
def parseCacheWF (cache : List (List Char × List regexStep)) : Prop :=
  ∀ k steps, aget cache k = some steps → steps ≠ []

/-- State invariant for `Decipher`: the parsed-transform cache holds no
empty entry (true initially and preserved by every call). -/
def stateWF (st : CipherState) : Prop := parseCacheWF st.regexParseCache

/-- An environment whose synthesizer-plus-interpreter oracle succeeds with
the value real execution produces on the fixture (`reverse → sliceFrom 26 →
reverse`). -/
def c1EnvMini : DecipherEnv :=
  ⟨.response 200 fixtureJS,
    fun _ _ => some (regexReverse (regexSplice (regexReverse fixtureSig) 26)),
    fun _ _ => none⟩

/-- An environment whose interpreter oracles both fail. -/
def c1EnvNone : DecipherEnv :=
  ⟨.response 200 fixtureJS, fun _ _ => none, fun _ _ => none⟩

/-! ### Helper lemmas -/

instance [DecidableEq ε] [DecidableEq α] : DecidableEq (Except ε α) := fun a b =>
  match a, b with
  | .error e, .error e' =>
    if h : e = e' then isTrue (by rw [h]) else isFalse fun hh => h (Except.error.inj hh)
  | .ok v, .ok v' =>
    if h : v = v' then isTrue (by rw [h]) else isFalse fun hh => h (Except.ok.inj hh)
  | .error _, .ok _ => isFalse fun hh => Except.noConfusion hh
  | .ok _, .error _ => isFalse fun hh => Except.noConfusion hh

theorem aget_aset_self [DecidableEq κ] (m : List (κ × α)) (k : κ) (v : α) :
    aget (aset m k v) k = some v := by
  simp [aget, aset, List.find?]

theorem aget_aset_cases [DecidableEq κ] (m : List (κ × α)) (k k' : κ) (v : α) :
    aget (aset m k v) k' = if k' = k then some v else aget m k' := by
  by_cases h : k' = k
  · subst h; simp [aget, aset, List.find?]
  · simp only [aget, aset, List.find?]
    have hd : decide (k = k') = false := by
      simp only [decide_eq_false_iff_not]
      exact fun hk => h hk.symm
    simp only [hd]
    rw [if_neg h]

/-- `-b < a.tmod b` for positive `b`. -/
theorem neg_lt_tmod (a : Int) {b : Int} (hb : 0 < b) : -b < Int.tmod a b := by
  rcases le_or_lt 0 a with ha | ha
  · have h0 : 0 ≤ Int.tmod a b := Int.tmod_nonneg b ha
    omega
  · obtain ⟨m, rfl⟩ := Int.eq_negSucc_of_lt_zero ha
    obtain ⟨n, rfl⟩ := Int.eq_ofNat_of_zero_le (Int.le_of_lt hb)
    have hn : 0 < n := by exact_mod_cast hb
    have hlt : (m + 1) % n < n := Nat.mod_lt _ hn
    have heq : Int.tmod (Int.negSucc m) (n : Int) = -(((m + 1) % n : Nat) : Int) := rfl
    rw [heq]
    omega

/-- Go's `n % len` followed by the negative fix-up computes the Euclidean
remainder (for a positive modulus). -/
theorem tmod_fix_eq_emod (a b : Int) (hb : 0 < b) :
    (if Int.tmod a b < 0 then Int.tmod a b + b else Int.tmod a b) = a % b := by
  have key : Int.tmod a b % b = a % b := by
    have h := Int.tmod_add_tdiv a b
    calc Int.tmod a b % b = (Int.tmod a b + b * a.tdiv b) % b :=
          (Int.add_mul_emod_self_left _ _ _).symm
      _ = a % b := by rw [h]
  have hub : Int.tmod a b < b := Int.tmod_lt_of_pos a hb
  have hlb : -b < Int.tmod a b := neg_lt_tmod a hb
  split
  · next hneg =>
    have h1 : 0 ≤ Int.tmod a b + b := by omega
    have h2 : Int.tmod a b + b < b := by omega
    calc Int.tmod a b + b = (Int.tmod a b + b) % b := (Int.emod_eq_of_lt h1 h2).symm
      _ = (Int.tmod a b + b * 1) % b := by ring_nf
      _ = Int.tmod a b % b := Int.add_mul_emod_self_left _ _ _
      _ = a % b := key
  · next hpos =>
    have h1 : 0 ≤ Int.tmod a b := by omega
    calc Int.tmod a b = Int.tmod a b % b := (Int.emod_eq_of_lt h1 hub).symm
      _ = a % b := key



/-- Claim C10 — applying a parsed operation list is total: `regexSplice`
returns its input unchanged for an out-of-range offset, `regexSwap` returns
strings of length ≤ 1 unchanged and otherwise swaps index 0 with index
`n mod len(s)`, and apply steps with an unknown operation tag are skipped. -/
theorem C10_apply_total :
    (∀ (s : List Char) (n : Int), n < 0 ∨ n > (s.length : Int) → regexSplice s n = s) ∧
    (∀ (s : List Char) (n : Int), s.length ≤ 1 → regexSwap s n = s) ∧
    (∀ (s : List Char) (n : Int), 1 < s.length → regexSwap s n = regexSwapSpec s n) ∧
    (∀ (r : List Char) (st : regexStep),
      st.op ≠ "rev" → st.op ≠ "spl" → st.op ≠ "swp" → applyStep r st = r) := by
  refine ⟨?_, ?_, ?_, ?_⟩
  · intro s n h
    simp only [regexSplice, if_pos h]
  · intro s n h
    simp only [regexSwap, if_pos h]
  · intro s n h
    have hb : (0 : Int) < (s.length : Int) := by
      have : 0 < s.length := by omega
      exact_mod_cast this
    have hfix := tmod_fix_eq_emod n (s.length : Int) hb
    simp only [regexSwap, regexSwapSpec, if_neg (by omega : ¬ s.length ≤ 1)]
    rw [hfix]
  · intro r st h1 h2 h3
    simp only [applyStep, if_neg h1, if_neg h2, if_neg h3]

/-- Witness for C10 at concrete inputs. -/
theorem C10_apply_total_witness :
    regexSplice ("abc".toList) (-1) = "abc".toList ∧
    regexSwap ("x".toList) 5 = "x".toList ∧
    regexSwap ("abcdef".toList) 10 = regexSwapSpec ("abcdef".toList) 10 ∧
    applyStep ("abc".toList) ⟨"zzz", 3⟩ = "abc".toList :=
  ⟨C10_apply_total.1 _ _ (by decide),
   C10_apply_total.2.1 _ _ (by decide),
   C10_apply_total.2.2.1 _ _ (by decide),
   C10_apply_total.2.2.2 _ _ (by decide) (by decide) (by decide)⟩

/-- Claim C7 — a script containing both "reverse" and "join" makes the
heuristic fallback return exactly the character-wise reversal. -/
theorem C7_pattern_fallback_reverse (js sig : List Char)
    (h1 : containsSub js ("reverse".toList) = true)
    (h2 : containsSub js ("join".toList) = true) :
    tryPatternFallback js sig = some sig.reverse := by
  simp only [tryPatternFallback, h1, h2, Bool.and_self, if_pos]

/-- Witness for C7. -/
theorem C7_pattern_fallback_reverse_witness :
    tryPatternFallback ("a.reverse();a.join()".toList) ("abc".toList) =
      some ("cba".toList) :=
  C7_pattern_fallback_reverse _ _ (by decide) (by decide)

/-! ### Claim C6 — sanitization idempotence -/

/-- Counterexample to C6: on `"(())"` the first pass-8 rewrite removes the
inner `()`, creating a new empty pair that only a second run removes, so
`sanitizePlayerJS` is not idempotent. -/
theorem C6_counterexample :
    sanitizePlayerJS ("(())".toList) = "()".toList ∧
    sanitizePlayerJS (sanitizePlayerJS ("(())".toList)) = [] ∧
    sanitizePlayerJS (sanitizePlayerJS ("(())".toList)) ≠
      sanitizePlayerJS ("(())".toList) := by
  decide

theorem litP_cons_ne (p : Char) (ps : List Char) (c : Char) (cs : List Char)
    (h : ¬ p = c) : litP (p :: ps) (c :: cs) = none := by
  simp [litP, h]

theorem lookaheadAt_ne (c : Char) (cs : List Char) (h : ¬ c = '?') :
    lookaheadAt (c :: cs) = none := by
  have e : ("?=".toList) = '?' :: '=' :: [] := rfl
  simp [lookaheadAt, e, litP_cons_ne '?' _ c cs (fun h2 => h h2.symm)]

theorem negLookaheadAt_ne (c : Char) (cs : List Char) (h : ¬ c = '?') :
    negLookaheadAt (c :: cs) = none := by
  have e : ("?!".toList) = '?' :: '!' :: [] := rfl
  simp [negLookaheadAt, e, litP_cons_ne '?' _ c cs (fun h2 => h h2.symm)]

theorem lookbehindAt_ne (c : Char) (cs : List Char) (h : ¬ c = '?') :
    lookbehindAt (c :: cs) = none := by
  have e : ("?<=".toList) = '?' :: '<' :: '=' :: [] := rfl
  simp [lookbehindAt, e, litP_cons_ne '?' _ c cs (fun h2 => h h2.symm)]

theorem negLookbehindAt_ne (c : Char) (cs : List Char) (h : ¬ c = '?') :
    negLookbehindAt (c :: cs) = none := by
  have e : ("?<!".toList) = '?' :: '<' :: '!' :: [] := rfl
  simp [negLookbehindAt, e, litP_cons_ne '?' _ c cs (fun h2 => h h2.symm)]

theorem namedCaptureAt_ne (c : Char) (cs : List Char) (h : ¬ c = '?') :
    namedCaptureAt (c :: cs) = none := by
  have e : ("?<".toList) = '?' :: '<' :: [] := rfl
  simp [namedCaptureAt, e, litP_cons_ne '?' _ c cs (fun h2 => h h2.symm)]

theorem atomicGroupAt_ne (c : Char) (cs : List Char) (h : ¬ c = '?') :
    atomicGroupAt (c :: cs) = none := by
  have e : ("?>".toList) = '?' :: '>' :: [] := rfl
  simp [atomicGroupAt, e, litP_cons_ne '?' _ c cs (fun h2 => h h2.symm)]

theorem questionAt_ne (c : Char) (cs : List Char) (h : ¬ c = '?') :
    questionAt (c :: cs) = none := by
  have e : ("?".toList) = '?' :: [] := rfl
  simp [questionAt, e, litP_cons_ne '?' _ c cs (fun h2 => h h2.symm)]

theorem emptyParensAt_ne (c : Char) (cs : List Char) (h : ¬ c = '(') :
    emptyParensAt (c :: cs) = none := by
  have e : ("(".toList) = '(' :: [] := rfl
  simp [emptyParensAt, e, litP_cons_ne '(' _ c cs (fun h2 => h h2.symm)]

theorem parenSemiAt_ne (c : Char) (cs : List Char) (h : ¬ c = '(') :
    parenSemiAt (c :: cs) = none := by
  have e : ("(".toList) = '(' :: [] := rfl
  simp [parenSemiAt, e, litP_cons_ne '(' _ c cs (fun h2 => h h2.symm)]

theorem parenEndAt_ne (c : Char) (cs : List Char) (h : ¬ c = '(') :
    parenEndAt (c :: cs) = none := by
  have e : ("(".toList) = '(' :: [] := rfl
  simp [parenEndAt, e, litP_cons_ne '(' _ c cs (fun h2 => h h2.symm)]

/-- A replace-all pass leaves strings alone on which the matcher can never
fire. -/
theorem goReplaceAll_eq_self (m : List Char → Option (List Char))
    (rep : List Char) (ok : Char → Prop)
    (hm : ∀ c cs, ok c → m (c :: cs) = none) :
    ∀ (fuel : Nat) (s : List Char), (∀ c ∈ s, ok c) →
      goReplaceAll m rep fuel s = s := by
  intro fuel
  induction fuel with
  | zero => intro s _; rfl
  | succ n ih =>
    intro s hs
    cases s with
    | nil => rfl
    | cons c cs =>
      have hc := hs c (List.mem_cons_self c cs)
      simp only [goReplaceAll, hm c cs hc]
      rw [ih cs fun x hx => hs x (List.mem_cons_of_mem c hx)]

/-- Claim C6 (amended) — `sanitizePlayerJS` is not idempotent in general
(see `C6_counterexample`); it is a fixed point, hence idempotent, on every
input containing neither `?` nor `(` — every one of the ten rewrite
patterns requires one of these two characters. -/
theorem C6_amended (s : List Char) (h : ∀ c ∈ s, ¬ c = '?' ∧ ¬ c = '(') :
    sanitizePlayerJS s = s ∧
    sanitizePlayerJS (sanitizePlayerJS s) = sanitizePlayerJS s := by
  have hq : ∀ c ∈ s, ¬ c = '?' := fun c hc => (h c hc).1
  have hp : ∀ c ∈ s, ¬ c = '(' := fun c hc => (h c hc).2
  have hfix : sanitizePlayerJS s = s := by
    simp only [sanitizePlayerJS, replaceAll]
    rw [goReplaceAll_eq_self lookaheadAt [] _ lookaheadAt_ne _ s hq]
    rw [goReplaceAll_eq_self negLookaheadAt [] _ negLookaheadAt_ne _ s hq]
    rw [goReplaceAll_eq_self lookbehindAt [] _ lookbehindAt_ne _ s hq]
    rw [goReplaceAll_eq_self negLookbehindAt [] _ negLookbehindAt_ne _ s hq]
    rw [goReplaceAll_eq_self namedCaptureAt [] _ namedCaptureAt_ne _ s hq]
    rw [goReplaceAll_eq_self atomicGroupAt [] _ atomicGroupAt_ne _ s hq]
    rw [goReplaceAll_eq_self questionAt [] _ questionAt_ne _ s hq]
    rw [goReplaceAll_eq_self emptyParensAt [] _ emptyParensAt_ne _ s hp]
    rw [goReplaceAll_eq_self parenSemiAt (";".toList) _ parenSemiAt_ne _ s hp]
    rw [goReplaceAll_eq_self parenEndAt [] _ parenEndAt_ne _ s hp]
  exact ⟨hfix, by rw [hfix, hfix]⟩

/-- Witness for the amended C6. -/
theorem C6_amended_witness :
    sanitizePlayerJS ("abc;)".toList) = "abc;)".toList ∧
    sanitizePlayerJS (sanitizePlayerJS ("abc;)".toList)) =
      sanitizePlayerJS ("abc;)".toList) :=
  C6_amended ("abc;)".toList) (by decide)

/-! ### Claim C4 — non-success HTTP status -/

/-- Counterexample to C4: a completed response with status 404 is returned
as a success and its body is cached. -/
theorem C4_counterexample :
    (getPlayerJS [] 0 (.response 404 ("notfound".toList)) "u").1 =
      .ok ("notfound".toList) ∧
    aget (getPlayerJS [] 0 (.response 404 ("notfound".toList)) "u").2 "u" =
      some ⟨"notfound".toList, playerJSTTL⟩ := by
  decide

/-- Claim C4 (amended) — `getPlayerJS` never inspects the HTTP status code:
on a cache miss every completed response is cached and returned as a
success regardless of its status, and a failure is produced only when the
request cannot be created, the round trip fails, or the body read fails (in
which cases the cache is untouched). -/
theorem C4_amended (cache : List (String × PlayerJSEntry)) (now : Nat)
    (url : String) (status : Nat) (body : List Char)
    (hmiss : cacheGet cache url now = none) :
    getPlayerJS cache now (.response status body) url =
      (.ok body, aset cache url ⟨body, now + playerJSTTL⟩) ∧
    (∀ outcome : FetchOutcome,
      outcome = .reqError ∨ outcome = .doError ∨ outcome = .readError →
      ∃ msg, getPlayerJS cache now outcome url =
        (.error (.playerJSDownload msg), cache)) := by
  constructor
  · simp only [getPlayerJS, hmiss]
  · rintro outcome (rfl | rfl | rfl)
    · exact ⟨"Failed to create request for player.js", by simp only [getPlayerJS, hmiss]⟩
    · exact ⟨"Failed to download player.js", by simp only [getPlayerJS, hmiss]⟩
    · exact ⟨"Failed to read player.js content", by simp only [getPlayerJS, hmiss]⟩

/-- Witness for the amended C4. -/
theorem C4_amended_witness :
    getPlayerJS [] 0 (.response 404 ("b".toList)) "u" =
      (.ok ("b".toList), aset [] "u" ⟨"b".toList, 0 + playerJSTTL⟩) :=
  (C4_amended [] 0 "u" 404 ("b".toList) (by decide)).1

/-! ### Claim C2 — `DecipherN` error behaviour -/



/-- Counterexample to C2: when the script fetch itself fails, `DecipherN`
returns that error instead of the input value with a nil error. -/
theorem C2_counterexample :
    (DecipherN ⟨fun _ => false, fun _ => false, fun _ _ => none⟩ [] 0
        .doError "u" ("n1".toList)).1 =
      .error (.playerJSDownload "Failed to download player.js") ∧
    (DecipherN ⟨fun _ => false, fun _ => false, fun _ _ => none⟩ [] 0
        .doError "u" ("n1".toList)).1 ≠ .ok ("n1".toList) := by
  decide

/-- Claim C2 (amended) — after a successful script fetch `DecipherN` never
returns an error: it returns some value, and whenever any later step fails
(running the script even after sanitization, the throttle function being
absent, the call raising, the result not being a string) that value is the
input unchanged; a failure of the script fetch itself, however, is
propagated as an error. -/
theorem C2_amended (env : JSEnv) (cache : List (String × PlayerJSEntry))
    (now : Nat) (outcome : FetchOutcome) (url : String) (nval : List Char) :
    (∀ content cache',
      getPlayerJS cache now outcome url = (.ok content, cache') →
      (∃ r, DecipherN env cache now outcome url nval = (.ok r, cache')) ∧
      (nDecodeFails env content nval = true →
        DecipherN env cache now outcome url nval = (.ok nval, cache'))) ∧
    (∀ e cache',
      getPlayerJS cache now outcome url = (.error e, cache') →
      DecipherN env cache now outcome url nval = (.error e, cache')) := by
  constructor
  · intro content cache' hg
    unfold DecipherN
    rw [hg]
    by_cases h1 : env.runOk content
    · simp only [nDecodeFails, h1, if_pos]
      by_cases h2 : env.hasNcode content
      · simp only [h2, if_pos]
        cases hc : env.callNcode content nval with
        | some r =>
          refine ⟨⟨r, rfl⟩, fun hf => ?_⟩
          simp [h2, hc] at hf
        | none => exact ⟨⟨nval, rfl⟩, fun _ => rfl⟩
      · simp only [h2]
        exact ⟨⟨nval, by simp⟩, fun _ => by simp⟩
    · by_cases h2 : env.runOk (sanitizePlayerJS content)
      · simp only [nDecodeFails, h1, h2, if_pos, if_neg, Bool.false_eq_true,
          ite_false, ite_true]
        by_cases h3 : env.hasNcode (sanitizePlayerJS content)
        · simp only [h3, if_pos]
          cases hc : env.callNcode (sanitizePlayerJS content) nval with
          | some r =>
            refine ⟨⟨r, rfl⟩, fun hf => ?_⟩
            simp [h3, hc] at hf
          | none => exact ⟨⟨nval, rfl⟩, fun _ => rfl⟩
        · simp only [h3]
          exact ⟨⟨nval, by simp⟩, fun _ => by simp⟩
      · refine ⟨⟨nval, ?_⟩, fun _ => ?_⟩ <;> simp [h1, h2]
  · intro e cache' hg
    unfold DecipherN
    rw [hg]

/-- Witness for the amended C2. -/
theorem C2_amended_witness :
    DecipherN ⟨fun _ => false, fun _ => false, fun _ _ => none⟩ [] 0
        (.response 200 ("x".toList)) "u" ("n1".toList) =
      (.ok ("n1".toList), aset [] "u" ⟨"x".toList, 0 + playerJSTTL⟩) :=
  ((C2_amended ⟨fun _ => false, fun _ => false, fun _ _ => none⟩ [] 0
      (.response 200 ("x".toList)) "u" ("n1".toList)).1 ("x".toList) _
    (by decide)).2 (by decide)

/-! ### The truncated-object-literal argument

The helper-object literal is matched lazily (`\{([\s\S]*?)\}` with an
optional trailing `;`), so the captured object body never contains a `}`;
the member pattern requires a `}`, so no member is ever classified. -/

theorem litP_subset (p : List Char) : ∀ s r, litP p s = some r → r ⊆ s := by
  induction p with
  | nil =>
    intro s r h
    simp only [litP, Option.some.injEq] at h
    subst h
    exact fun a ha => ha
  | cons x xs ih =>
    intro s r h
    cases s with
    | nil => simp [litP] at h
    | cons c cs =>
      simp only [litP] at h
      split at h
      · exact fun a ha => List.mem_cons_of_mem c (ih cs r h ha)
      · cases h

theorem spanP_snd_subset (p : Char → Bool) : ∀ s : List Char, (spanP p s).2 ⊆ s := by
  intro s
  induction s with
  | nil => simp [spanP]
  | cons c cs ih =>
    simp only [spanP]
    split
    · rcases hsp : spanP p cs with ⟨r, rest⟩
      rw [hsp] at ih
      exact fun a ha => List.mem_cons_of_mem c (ih ha)
    · exact fun a ha => ha

theorem dropSpaces_subset (s : List Char) : dropSpaces s ⊆ s :=
  spanP_snd_subset isSpaceChar s

theorem spaces1_subset (s r : List Char) (h : spaces1 s = some r) : r ⊆ s := by
  cases s with
  | nil => simp [spaces1] at h
  | cons c cs =>
    simp only [spaces1] at h
    split at h
    · cases h; exact dropSpaces_subset _
    · cases h

theorem untilChar_some_mem (c : Char) :
    ∀ (s : List Char) pr, untilChar c s = some pr → c ∈ s := by
  intro s
  induction s with
  | nil => intro pr h; simp [untilChar] at h
  | cons x xs ih =>
    intro pr h
    simp only [untilChar] at h
    split at h
    · next hx => exact hx ▸ List.mem_cons_self x xs
    · cases hu : untilChar c xs with
      | none => rw [hu] at h; cases h
      | some pr' => exact List.mem_cons_of_mem x (ih pr' hu)

theorem untilChar_fst_not_mem (c : Char) :
    ∀ (s : List Char) pr, untilChar c s = some pr → c ∉ pr.1 := by
  intro s
  induction s with
  | nil => intro pr h; simp [untilChar] at h
  | cons x xs ih =>
    intro pr h
    simp only [untilChar] at h
    split at h
    · cases h; simp
    · cases hu : untilChar c xs with
      | none => rw [hu] at h; cases h
      | some pr' =>
        rw [hu] at h
        simp only [Option.map_some', Option.some.injEq] at h
        subst h
        rename_i hx
        intro hmem
        rcases List.mem_cons.mp hmem with h1 | h1
        · exact hx h1.symm
        · exact ih pr' hu h1

theorem kwVarLetConst_subset (s r : List Char) (h : kwVarLetConst s = some r) :
    r ⊆ s := by
  unfold kwVarLetConst at h
  cases h1 : litP ("var".toList) s with
  | some r1 => rw [h1] at h; cases h; exact litP_subset _ _ _ h1
  | none =>
    rw [h1] at h
    cases h2 : litP ("let".toList) s with
    | some r2 => rw [h2] at h; cases h; exact litP_subset _ _ _ h2
    | none => rw [h2] at h; exact litP_subset _ _ _ h

/-- A successful helper-object-literal match captures a body with no `}`. -/
theorem objLiteralAt_not_rbrace (obj s ob : List Char)
    (h : objLiteralAt obj s = some ob) : rbrace ∉ ob := by
  unfold objLiteralAt at h
  simp only [Option.bind_eq_bind, Option.bind_eq_some] at h
  obtain ⟨s1, _h1, h⟩ := h
  obtain ⟨s2, _h2, h⟩ := h
  obtain ⟨s3, _h3, h⟩ := h
  obtain ⟨s4, _h4, h⟩ := h
  obtain ⟨s5, _h5, h⟩ := h
  obtain ⟨pr, hu, h⟩ := h
  rcases pr with ⟨body, rest⟩
  simp only [Option.some.injEq] at h
  cases h
  exact untilChar_fst_not_mem rbrace _ _ hu

/-- A successful member match implies the input contains a `}`. -/
theorem funcReAt_some_rbrace (s : List Char) (x : (List Char × List Char) × List Char)
    (h : funcReAt s = some x) : rbrace ∈ s := by
  unfold funcReAt at h
  rcases hsp : spanP isIdentChar s with ⟨name, s0⟩
  rw [hsp] at h
  dsimp only at h
  have hs0 : s0 ⊆ s := by
    have h' := spanP_snd_subset isIdentChar s
    rw [hsp] at h'
    exact h'
  split at h
  · cases h
  · simp only [Option.bind_eq_bind, Option.bind_eq_some] at h
    obtain ⟨s1, h1, h⟩ := h
    obtain ⟨s2, h2, h⟩ := h
    have hs1 : s1 ⊆ s0 := fun a ha => dropSpaces_subset s0 (litP_subset _ _ _ h1 ha)
    have hs2 : s2 ⊆ s1 := fun a ha => dropSpaces_subset s1 (litP_subset _ _ _ h2 ha)
    have key : ∀ rest : List Char, rest ⊆ s2 →
        ((some rest).bind fun y =>
          (litP [lbrace] (dropSpaces y)).bind fun s5 =>
            (untilChar rbrace s5).bind fun pr => some ((name, pr.1), pr.2)) = some x →
        rbrace ∈ s := by
      intro rest hrest hh
      simp only [Option.some_bind, Option.bind_eq_some] at hh
      obtain ⟨s5, h5, hh⟩ := hh
      obtain ⟨pr, hu, _⟩ := hh
      have hmem : rbrace ∈ s5 := untilChar_some_mem rbrace s5 pr hu
      have hs5 : s5 ⊆ rest := fun a ha => dropSpaces_subset rest (litP_subset _ _ _ h5 ha)
      exact hs0 (hs1 (hs2 (hrest (hs5 hmem))))
    split at h
    · next rest => exact key rest (fun a ha => List.mem_cons_of_mem _ ha) h
    · next rest =>
      exact key rest
        (fun a ha =>
          List.mem_cons_of_mem _ (List.mem_cons_of_mem _ (List.mem_cons_of_mem _ ha))) h
    · simp at h

/-- The member pattern cannot match in text without a `}`. -/
theorem funcReAt_eq_none (s : List Char) (hnb : rbrace ∉ s) : funcReAt s = none := by
  cases h : funcReAt s with
  | none => rfl
  | some x => exact absurd (funcReAt_some_rbrace s x h) hnb

theorem scanAllAux_funcReAt_nil :
    ∀ (fuel : Nat) (s : List Char), rbrace ∉ s → scanAllAux funcReAt fuel s = [] := by
  intro fuel
  induction fuel with
  | zero => intro s _; rfl
  | succ n ih =>
    intro s hnb
    cases s with
    | nil => simp only [scanAllAux, funcReAt_eq_none [] hnb]
    | cons c cs =>
      simp only [scanAllAux, funcReAt_eq_none _ hnb]
      exact ih cs fun hmem => hnb (List.mem_cons_of_mem c hmem)

theorem scanFirstAux_const_exists (f : List Char → Option α) :
    ∀ (fuel : Nat) (prev : Option Char) (s : List Char) (a : α),
      scanFirstAux (fun _ => f) fuel prev s = some a → ∃ t, f t = some a := by
  intro fuel
  induction fuel with
  | zero => intro prev s a h; cases h
  | succ n ih =>
    intro prev s a h
    simp only [scanFirstAux] at h
    cases hf : f s with
    | some b =>
      rw [hf] at h
      cases h
      exact ⟨s, hf⟩
    | none =>
      rw [hf] at h
      cases s with
      | nil => cases h
      | cons c cs => exact ih (some c) cs a h

/-- Whenever the parser extracts a helper-object literal, the classifier
finds no members: the lazily captured object body has no `}`, which the
member pattern requires. -/
theorem buildNameToOp_of_objLiteral (obj js ob : List Char)
    (h : scanFirst (fun _ => objLiteralAt obj) js = some ob) :
    buildNameToOp (scanAll funcReAt ob) = [] := by
  obtain ⟨t, ht⟩ := scanFirstAux_const_exists (objLiteralAt obj) _ none js ob h
  have hnb := objLiteralAt_not_rbrace obj t ob ht
  rw [scanAll, scanAllAux_funcReAt_nil _ ob hnb]
  rfl

theorem orDefaultSteps_ne_nil (steps : List regexStep) : orDefaultSteps steps ≠ [] := by
  unfold orDefaultSteps
  split
  · simp
  · next h => exact h

/-- The fallback detector never returns an empty step list. -/
theorem detectFallbackPatterns_ne_nil (js : List Char) :
    detectFallbackPatterns js ≠ [] := by
  unfold detectFallbackPatterns
  exact orDefaultSteps_ne_nil _

/-- Every `.steps` outcome of the parse phase is a non-empty list: all
fall-through branches produce `detectFallbackPatterns` (non-empty), the
`gens` branch is reached only with a non-empty member map — which
`buildNameToOp_of_objLiteral` rules out — and so is the calls branch. -/
theorem parsePhase_steps_ne_nil (js sig : List Char) (l : List regexStep)
    (h : parsePhase js sig = .steps l) : l ≠ [] := by
  unfold parsePhase at h
  cases hfn : findDecipherFn js with
  | none =>
    simp only [hfn] at h
    cases h
    exact detectFallbackPatterns_ne_nil js
  | some pb =>
    simp only [hfn] at h
    cases hq1 : quick1Arg pb.1 pb.2 with
    | some n =>
      simp only [hq1] at h
      exact ParseOutcome.noConfusion h
    | none =>
      simp only [hq1] at h
      cases hq2 : quick2Arg pb.2 with
      | some n =>
        simp only [hq2] at h
        exact ParseOutcome.noConfusion h
      | none =>
        simp only [hq2] at h
        cases hobj : scanFirst (fun _ => objNameAt pb.1) pb.2 with
        | none =>
          simp only [hobj] at h
          cases h
          exact detectFallbackPatterns_ne_nil js
        | some obj =>
          simp only [hobj] at h
          cases hlit : scanFirst (fun _ => objLiteralAt obj) js with
          | none =>
            simp only [hlit] at h
            cases h
            exact detectFallbackPatterns_ne_nil js
          | some ob =>
            simp only [hlit] at h
            have hcls := buildNameToOp_of_objLiteral obj js ob hlit
            rw [if_pos hcls] at h
            cases h
            exact detectFallbackPatterns_ne_nil js



/-- On any well-formed cache, `tryRegexDecipher` always succeeds and
preserves the invariant. -/
theorem tryRegexDecipher_total (cache : List (List Char × List regexStep))
    (js sig : List Char) (hwf : parseCacheWF cache) :
    (∃ out, (tryRegexDecipher cache js sig).1 = some out) ∧
    parseCacheWF (tryRegexDecipher cache js sig).2 := by
  unfold tryRegexDecipher
  cases hc : aget cache js with
  | some steps =>
    have hne := hwf js steps hc
    simp only [hc, if_neg hne]
    exact ⟨⟨_, rfl⟩, hwf⟩
  | none =>
    simp only [hc]
    cases hp : parsePhase js sig with
    | early out => exact ⟨⟨out, rfl⟩, hwf⟩
    | steps parsed =>
      have hne := parsePhase_steps_ne_nil js sig parsed hp
      simp only [if_neg hne]
      refine ⟨⟨_, rfl⟩, ?_⟩
      intro k st hk
      rw [aget_aset_cases] at hk
      split at hk
      · cases hk; exact hne
      · exact hwf k st hk

/-! ### Claim C3 — NotFound on unrecognized input -/

/-- Counterexample to C3: the empty script matches none of the parser's
shapes, yet `tryRegexDecipher` returns `ok = true` with the signature
transformed by the default fallback steps (here `"abc" ↦ "ab"`). -/
theorem C3_counterexample :
    findDecipherFn [] = none ∧
    (tryRegexDecipher [] [] ("abc".toList)).1 = some ("ab".toList) := by
  decide



theorem parsePhase_detect_of_nothing (js sig : List Char)
    (h : ParserMatchesNothing js) :
    parsePhase js sig = .steps (detectFallbackPatterns js) := by
  unfold parsePhase
  rcases h with hfn | ⟨pb, hfn, hq1, hq2, hrest⟩
  · rw [hfn]
  · simp only [hfn, hq1, hq2]
    rcases hrest with hobj | ⟨obj, hobj, hrest⟩
    · simp only [hobj]
    · simp only [hobj]
      rcases hrest with hlit | ⟨ob, hlit, hrest⟩
      · simp only [hlit]
      · simp only [hlit]
        rcases hrest with hcls | ⟨hcalls, hgens⟩
        · rw [if_pos hcls]
        · by_cases hcls : buildNameToOp (scanAll funcReAt ob) = []
          · rw [if_pos hcls]
          · rw [if_neg hcls]
            simp [hcalls, hgens]

/-- Claim C3 (amended) — when the structural parser matches none of its
known shapes, `tryRegexDecipher` does not return NotFound: the step list is
taken from `detectFallbackPatterns`, which is always non-empty, so the call
returns `ok = true` with the heuristically transformed signature (and
caches the defaulted step list). -/
theorem C3_amended (cache : List (List Char × List regexStep))
    (js sig : List Char) (hm : aget cache js = none)
    (h : ParserMatchesNothing js) :
    tryRegexDecipher cache js sig =
      (some (applySteps (detectFallbackPatterns js) sig),
        aset cache js (detectFallbackPatterns js)) ∧
    detectFallbackPatterns js ≠ [] := by
  have hp := parsePhase_detect_of_nothing js sig h
  have hne := detectFallbackPatterns_ne_nil js
  refine ⟨?_, hne⟩
  unfold tryRegexDecipher
  simp only [hm, hp, if_neg hne]

/-- Witness for the amended C3 (the empty script). -/
theorem C3_amended_witness :
    tryRegexDecipher [] [] ("abc".toList) =
      (some (applySteps (detectFallbackPatterns []) ("abc".toList)),
        aset [] [] (detectFallbackPatterns [])) ∧
    detectFallbackPatterns [] ≠ [] :=
  C3_amended [] [] ("abc".toList) (by decide) (Or.inl (by decide))

/-! ### Claim C9 — the reverse/splice call-sequence replacement -/

/-- Counterexample to C9: `js9Script`'s transform function, helper object
name `B` and call sequence `B.B0(a,1)` are all located, its body contains
both `.reverse()` and `.splice(` (with literal `.splice(0,7)`), yet the
result on `"abcdefghij"` is `"cba"` — not the claimed
`[Reverse, SliceFrom 7, Reverse]` replay, which would give `"abc"`. -/
theorem C9_counterexample :
    findDecipherFn js9Script = some (("a".toList), js9Body) ∧
    scanFirst (fun _ => objNameAt ("a".toList)) js9Body = some ("B".toList) ∧
    scanAll (callReAt ("B".toList) ("a".toList)) js9Body ≠ [] ∧
    containsSub js9Body (".reverse()".toList) = true ∧
    containsSub js9Body (".splice(".toList) = true ∧
    (tryRegexDecipher [] js9Script ("abcdefghij".toList)).1 =
      some ("cba".toList) ∧
    some ("cba".toList) ≠
      some (applySteps [⟨"rev", 0⟩, ⟨"spl", 7⟩, ⟨"rev", 0⟩]
        ("abcdefghij".toList)) := by
  decide

/-- Claim C9 (amended) — the call-sequence branch, and with it the
reverse/splice replacement, is unreachable: whenever the parser locates the
transform function (with neither quick shortcut firing), the helper-object
name and the helper-object literal, the lazily captured object body
contains no `}`, so no helper method is classified and the parse falls back
to `detectFallbackPatterns` regardless of the call sequence or of
`.reverse()`/`.splice(` occurring in the body. -/
theorem C9_amended (js sig : List Char) (pb : List Char × List Char)
    (obj ob : List Char)
    (hfn : findDecipherFn js = some pb)
    (hq1 : quick1Arg pb.1 pb.2 = none)
    (hq2 : quick2Arg pb.2 = none)
    (hobj : scanFirst (fun _ => objNameAt pb.1) pb.2 = some obj)
    (hlit : scanFirst (fun _ => objLiteralAt obj) js = some ob) :
    buildNameToOp (scanAll funcReAt ob) = [] ∧
    parsePhase js sig = .steps (detectFallbackPatterns js) := by
  have hcls := buildNameToOp_of_objLiteral obj js ob hlit
  refine ⟨hcls, ?_⟩
  unfold parsePhase
  simp only [hfn, hq1, hq2, hobj, hlit]
  rw [if_pos hcls]

/-- Witness for the amended C9 at `js9Script`. -/
theorem C9_amended_witness :
    buildNameToOp (scanAll funcReAt ("B0:function(a)\x7ba.reverse()".toList)) = [] ∧
    parsePhase js9Script ("abcdefghij".toList) =
      .steps (detectFallbackPatterns js9Script) :=
  C9_amended js9Script ("abcdefghij".toList) (("a".toList), js9Body)
    ("B".toList) ("B0:function(a)\x7ba.reverse()".toList)
    (by decide) (by decide) (by decide) (by decide) (by decide)

/-! ### Claim C5 — the fixture test -/

/-- Claim C5 (code bug) — on the repository's own `regex_test.go` fixture,
the parse phase produces the fallback steps `[rev, swp 0]` (not the
documented three-step transform), and `tryRegexDecipher` returns the plain
reversal of the input, which differs from the value the test asserts,
`reverse (sliceFrom 26 (reverse s))`. -/
theorem C5_fixture_test_divergence :
    parsePhase fixtureJS fixtureSig = .steps [⟨"rev", 0⟩, ⟨"swp", 0⟩] ∧
    (tryRegexDecipher [] fixtureJS fixtureSig).1 = some fixtureSig.reverse ∧
    fixtureSig.reverse ≠ regexReverse (regexSplice (regexReverse fixtureSig) 26) := by
  decide

/-! ### Claim C8 — atomicity of `Decipher` with respect to the caches -/

/-- Reading back a just-written resolved signature succeeds. -/
theorem sigCacheGet_write (st : CipherState) (sig out : List Char) (now : Nat) :
    sigCacheGet (writeSig st sig out now).signatureCache sig now = some out := by
  unfold sigCacheGet writeSig
  simp only [aget_aset_self]
  rw [if_pos (by unfold signatureTTL; omega)]



/-- Claim C8 — every `Decipher` call either returns a final string that is
readable from the Resolved-Signature cache of the resulting state, or
returns an error with all three caches exactly as before the call. -/
theorem C8_atomic (env : DecipherEnv) (st : CipherState) (now : Nat)
    (url : String) (sig : List Char) (hwf : stateWF st) :
    (∃ v, (Decipher env st now url sig).1 = .ok v ∧
      sigCacheGet (Decipher env st now url sig).2.1.signatureCache sig now = some v) ∨
    ((∃ er, (Decipher env st now url sig).1 = .error er) ∧
      (Decipher env st now url sig).2.1 = st) := by
  unfold Decipher
  cases hhit : sigCacheGet st.signatureCache sig now with
  | some v =>
    simp only [hhit]
    exact Or.inl ⟨v, rfl, rfl⟩
  | none =>
    simp only [hhit]
    rcases hg : getPlayerJS st.playerJSCache now env.fetch url with ⟨res, pc'⟩
    cases res with
    | error e =>
      have hpc : pc' = st.playerJSCache := by
        unfold getPlayerJS at hg
        cases hcg : cacheGet st.playerJSCache url now with
        | some b =>
          rw [hcg] at hg
          simp only [Prod.mk.injEq] at hg
          exact absurd hg.1 (fun hh => Except.noConfusion hh)
        | none =>
          rw [hcg] at hg
          cases hf : env.fetch <;> rw [hf] at hg <;>
            simp only [Prod.mk.injEq] at hg
          · exact hg.2.symm
          · exact hg.2.symm
          · exact hg.2.symm
          · exact absurd hg.1 (fun hh => Except.noConfusion hh)
      simp only [hg]
      refine Or.inr ⟨⟨CipherError.playerJSDownload "Failed to download player.js", rfl⟩, ?_⟩
      show ({ st with playerJSCache := pc' } : CipherState) = st
      rw [hpc]
    | ok content =>
      simp only [hg]
      cases hm : env.miniJS content sig with
      | some out =>
        simp only [hm]
        exact Or.inl ⟨out, rfl, sigCacheGet_write _ sig out now⟩
      | none =>
        simp only [hm]
        obtain ⟨⟨out, hout⟩, _hwf'⟩ :=
          tryRegexDecipher_total st.regexParseCache content sig hwf
        rcases ht : tryRegexDecipher st.regexParseCache content sig with ⟨ores, rc'⟩
        rw [ht] at hout
        simp only at hout
        subst hout
        simp only [ht]
        exact Or.inl ⟨out, rfl, sigCacheGet_write _ sig out now⟩

/-! ### Claim C1 — strategy priority order -/



/-- Counterexample to C1: on a cache miss, `Decipher` attempts the
Synthesizer + Interpreter (`tryMiniJSDecipher`) before the Structural
Parser — the trace is `[miniJS]` and its result is returned even though the
Structural Parser produces a (different) result on the same script. -/
theorem C1_counterexample :
    (Decipher c1EnvMini CipherState.empty 0 "u" fixtureSig).1 =
      .ok (regexReverse (regexSplice (regexReverse fixtureSig) 26)) ∧
    (Decipher c1EnvMini CipherState.empty 0 "u" fixtureSig).2.2 = [Strat.miniJS] ∧
    (tryRegexDecipher [] fixtureJS fixtureSig).1 = some fixtureSig.reverse ∧
    fixtureSig.reverse ≠ regexReverse (regexSplice (regexReverse fixtureSig) 26) := by
  decide

/-- Claim C1 (amended) — on a Resolved-Signature cache miss with a
successful script fetch, the strategies are attempted in the order
Synthesizer + Interpreter (`tryMiniJSDecipher`), Structural Parser
(`tryRegexDecipher`), full-script Interpreter (`tryOttoDecipher`),
Heuristic Fallback (`tryPatternFallback`); the first to produce a result
determines the returned string, which is written into the
Resolved-Signature cache, and only total failure returns an error. -/
theorem C1_amended (env : DecipherEnv) (st : CipherState) (now : Nat)
    (url : String) (sig content : List Char)
    (hmiss : sigCacheGet st.signatureCache sig now = none)
    (hfetch : (getPlayerJS st.playerJSCache now env.fetch url).1 = .ok content) :
    (∀ o, env.miniJS content sig = some o →
      (Decipher env st now url sig).1 = .ok o ∧
      (Decipher env st now url sig).2.2 = [Strat.miniJS] ∧
      sigCacheGet (Decipher env st now url sig).2.1.signatureCache sig now = some o) ∧
    (∀ o, env.miniJS content sig = none →
      (tryRegexDecipher st.regexParseCache content sig).1 = some o →
      (Decipher env st now url sig).1 = .ok o ∧
      (Decipher env st now url sig).2.2 = [Strat.miniJS, Strat.regex] ∧
      sigCacheGet (Decipher env st now url sig).2.1.signatureCache sig now = some o) ∧
    (∀ o, env.miniJS content sig = none →
      (tryRegexDecipher st.regexParseCache content sig).1 = none →
      env.otto content sig = some o →
      (Decipher env st now url sig).1 = .ok o ∧
      (Decipher env st now url sig).2.2 = [Strat.miniJS, Strat.regex, Strat.otto] ∧
      sigCacheGet (Decipher env st now url sig).2.1.signatureCache sig now = some o) ∧
    (∀ o, env.miniJS content sig = none →
      (tryRegexDecipher st.regexParseCache content sig).1 = none →
      env.otto content sig = none →
      tryPatternFallback content sig = some o →
      (Decipher env st now url sig).1 = .ok o ∧
      (Decipher env st now url sig).2.2 =
        [Strat.miniJS, Strat.regex, Strat.otto, Strat.pattern] ∧
      sigCacheGet (Decipher env st now url sig).2.1.signatureCache sig now = some o) ∧
    (env.miniJS content sig = none →
      (tryRegexDecipher st.regexParseCache content sig).1 = none →
      env.otto content sig = none →
      tryPatternFallback content sig = none →
      (∃ er, (Decipher env st now url sig).1 = .error er) ∧
      (Decipher env st now url sig).2.2 =
        [Strat.miniJS, Strat.regex, Strat.otto, Strat.pattern]) := by
  rcases hgp : getPlayerJS st.playerJSCache now env.fetch url with ⟨r, pc'⟩
  rw [hgp] at hfetch
  simp only at hfetch
  subst hfetch
  refine ⟨?_, ?_, ?_, ?_, ?_⟩
  · intro o hm
    unfold Decipher
    simp only [hmiss, hgp, hm]
    exact ⟨by trivial, by trivial, sigCacheGet_write _ sig o now⟩
  · intro o hm hreg
    unfold Decipher
    simp only [hmiss, hgp, hm]
    rcases ht : tryRegexDecipher st.regexParseCache content sig with ⟨ores, rc'⟩
    rw [ht] at hreg
    simp only at hreg
    subst hreg
    simp only [ht]
    exact ⟨by trivial, by trivial, sigCacheGet_write _ sig o now⟩
  · intro o hm hreg hott
    unfold Decipher
    simp only [hmiss, hgp, hm]
    rcases ht : tryRegexDecipher st.regexParseCache content sig with ⟨ores, rc'⟩
    rw [ht] at hreg
    simp only at hreg
    subst hreg
    simp only [ht, hott]
    exact ⟨by trivial, by trivial, sigCacheGet_write _ sig o now⟩
  · intro o hm hreg hott hpat
    unfold Decipher
    simp only [hmiss, hgp, hm]
    rcases ht : tryRegexDecipher st.regexParseCache content sig with ⟨ores, rc'⟩
    rw [ht] at hreg
    simp only at hreg
    subst hreg
    simp only [ht, hott, hpat]
    exact ⟨by trivial, by trivial, sigCacheGet_write _ sig o now⟩
  · intro hm hreg hott hpat
    unfold Decipher
    simp only [hmiss, hgp, hm]
    rcases ht : tryRegexDecipher st.regexParseCache content sig with ⟨ores, rc'⟩
    rw [ht] at hreg
    simp only at hreg
    subst hreg
    simp only [ht, hott, hpat]
    exact ⟨⟨_, rfl⟩, by trivial⟩

/-- Witness for the amended C1: with the interpreter oracles failing, the
fixture resolves through the Structural Parser, second in the attempt
order. -/
theorem C1_amended_witness :
    (Decipher c1EnvNone CipherState.empty 0 "u" fixtureSig).1 =
      .ok fixtureSig.reverse ∧
    (Decipher c1EnvNone CipherState.empty 0 "u" fixtureSig).2.2 =
      [Strat.miniJS, Strat.regex] ∧
    sigCacheGet (Decipher c1EnvNone CipherState.empty 0 "u"
        fixtureSig).2.1.signatureCache fixtureSig 0 = some fixtureSig.reverse :=
  (C1_amended c1EnvNone CipherState.empty 0 "u" fixtureSig fixtureJS
      (by decide) (by decide)).2.1 fixtureSig.reverse rfl (by decide)

/-- Witness for C8 (an error call on the empty state leaves it untouched). -/
theorem C8_atomic_witness :
    (∃ v, (Decipher ⟨.doError, fun _ _ => none, fun _ _ => none⟩
        CipherState.empty 0 "u" ("s".toList)).1 = .ok v ∧
      sigCacheGet (Decipher ⟨.doError, fun _ _ => none, fun _ _ => none⟩
          CipherState.empty 0 "u" ("s".toList)).2.1.signatureCache ("s".toList) 0 =
        some v) ∨
    ((∃ er, (Decipher ⟨.doError, fun _ _ => none, fun _ _ => none⟩
        CipherState.empty 0 "u" ("s".toList)).1 = .error er) ∧
      (Decipher ⟨.doError, fun _ _ => none, fun _ _ => none⟩
          CipherState.empty 0 "u" ("s".toList)).2.1 = CipherState.empty) :=
  C8_atomic ⟨.doError, fun _ _ => none, fun _ _ => none⟩ CipherState.empty 0 "u"
    ("s".toList) (fun _k _steps hk => Option.noConfusion hk)

end Ytdlp
